import Mathlib

/-!
Verification of `packages/@aws-cdk/aws-iot/lib/topic-rule.ts`: the `TopicRule`
construct (constructor plus the static import `fromTopicRuleArn`).

Strings are embedded as Lean `String`s, the fallible import returns
`Except String`, and the enclosing provisioning graph is passed explicitly as
a list of the declarative resource records (`CfnTopicRuleProps`) registered
with the engine. Framework collaborators that live in this repository but
outside the verified file (the ARN helpers of `@aws-cdk/core`, the generated
`CfnTopicRule`, and `IotSql`) are modelled from the spec, as marked on each
definition.
-/

/-- The result of binding an `IotSql` filter configuration:
`{ awsIotSqlVersion, sql }` (spec: a query string and a version tag). -/
structure SqlConfig where
  awsIotSqlVersion : String
  sql : String
deriving DecidableEq, Repr

/-- Modelled from the spec: the filter-configuration collaborator (`IotSql`,
not under the verified sources) exposes `bind(context) -> {query, version}`;
we model it by the configuration its `bind` produces. -/
structure IotSql where
  boundConfig : SqlConfig
deriving DecidableEq, Repr

/-- Modelled from the spec: `bind` yields the query/version pair. -/
def IotSql.bind (s : IotSql) : SqlConfig :=
  s.boundConfig

/-- An action entry of the topic-rule payload. The construct never builds one
(the emitted list is always empty), so the type is left without inhabitants
relevant to the claims. -/
structure ActionProperty where
deriving DecidableEq, Repr

/-- The declarative `topicRulePayload` handed to the provisioning engine. -/
structure TopicRulePayloadProperty where
  actions : List ActionProperty
  awsIotSqlVersion : String
  sql : String
deriving DecidableEq, Repr

/-- The declarative resource record (`CfnTopicRule` props) registered with the
provisioning engine. -/
structure CfnTopicRuleProps where
  ruleName : Option String
  topicRulePayload : TopicRulePayloadProperty
deriving DecidableEq, Repr

/-- The enclosing provisioning graph: the sequence of declarative resource
records registered so far. -/
abbrev Graph := List CfnTopicRuleProps

/-- The `ITopicRule` identity: the pair (arn, name) exposed by a rule. -/
structure ITopicRule where
  topicRuleArn : String
  topicRuleName : String
deriving DecidableEq, Repr

/-- The constructor input `TopicRuleProps`: optional explicit rule name and
the SQL filter. -/
structure TopicRuleProps where
  topicRuleName : Option String
  sql : IotSql
deriving DecidableEq, Repr

/-- Everything after the first slash of the list, or `none` when the list has
no slash. -/
def afterSlash : List Char → Option (List Char)
  | [] => none
  | c :: cs => if c = '/' then some cs else afterSlash cs

/-- Modelled from the spec: `Stack.splitArn(arn, ArnFormat.SLASH_RESOURCE_NAME)`
of `@aws-cdk/core` (not under the verified sources) "splits the identifier
using the slash resource name convention; extracts the trailing resource
name": the resource name is everything after the first `/` separator, and is
absent when the identifier has no such separator. -/
def splitResourceName (arn : String) : Option String :=
  (afterSlash arn.data).map fun l => String.mk l

/-- Modelled from the spec: the provisioning-engine environment used by the
attribute-resolution convention, plus the provider-assigned physical name
used by the name-resolution convention when no explicit name is given. -/
structure Engine where
  partition : String
  region : String
  account : String
  assignedName : String
deriving DecidableEq, Repr

/-- Modelled from the spec: the engine's attribute-resolution helper producing
a fully qualified ARN from `{service, resource, resourceName}` under the
slash-resource-name grammar `arn:partition:service:region:account:resource/resourceName`. -/
def Engine.composeArn (e : Engine) (service res resourceName : String) : String :=
  "arn:" ++ e.partition ++ ":" ++ service ++ ":" ++ e.region ++ ":" ++
    e.account ++ ":" ++ res ++ "/" ++ resourceName

/-- The message of the error thrown when the ARN has no topic rule name. -/
def missingTopicRuleNameMsg (topicRuleArn : String) : String :=
  "Missing topic rule name in ARN: \x27" ++ topicRuleArn ++ "\x27"

/-- The import operation `TopicRule.fromTopicRuleArn`: splits the ARN with
the slash-resource-name convention; when the resource name is absent (or, per
the JavaScript falsiness check `!parts.resourceName`, empty) it throws
`Missing topic rule name in ARN: ...`; otherwise it returns an `Import`
identity exposing the input ARN and the extracted name. The import registers
no resource record, so the graph is returned unchanged. -/
def fromTopicRuleArn (topicRuleArn : String) (g : Graph) :
    Except String ITopicRule × Graph :=
  match splitResourceName topicRuleArn with
  | none => (Except.error (missingTopicRuleNameMsg topicRuleArn), g)
  | some resourceName =>
    if resourceName = "" then
      (Except.error (missingTopicRuleNameMsg topicRuleArn), g)
    else
      (Except.ok { topicRuleArn := topicRuleArn, topicRuleName := resourceName }, g)

/-- The `TopicRule` constructor: binds the SQL configuration, registers one
`CfnTopicRule` record `{ ruleName, topicRulePayload: { actions: [],
awsIotSqlVersion, sql } }` with the provisioning engine, and derives the ARN
(`getResourceArnAttribute` with service `iot`, resource `rule`, resourceName
the physical name — modelled from the spec by `Engine.composeArn`) and the
name (`getResourceNameAttribute` — modelled from the spec as the explicit
name, or the provider-assigned one when absent). The constructor contains no
throw, so it always returns `Except.ok`. -/
def TopicRule.construct (e : Engine) (props : TopicRuleProps) (g : Graph) :
    Except String (ITopicRule × Graph) :=
  let physicalName := props.topicRuleName
  let sqlConfig := props.sql.bind
  let resource : CfnTopicRuleProps :=
    { ruleName := physicalName
      topicRulePayload :=
        { actions := []
          awsIotSqlVersion := sqlConfig.awsIotSqlVersion
          sql := sqlConfig.sql } }
  let resolvedName := physicalName.getD e.assignedName
  let topicRuleArn := e.composeArn "iot" "rule" resolvedName
  Except.ok
    ({ topicRuleArn := topicRuleArn, topicRuleName := resolvedName },
      g ++ [resource])

/-- The spec's RuleIdentity invariant: the name is the trailing path segment
of the ARN after the fixed `rule/` separator. -/
def ruleNameInvariant (r : ITopicRule) : Prop :=
  ∃ p, r.topicRuleArn = p ++ "rule/" ++ r.topicRuleName

/-- Splitting at the first slash: when the part before the slash has none,
everything after the separator is returned. -/
theorem afterSlash_append_slash (p n : List Char) (hp : ('/' : Char) ∉ p) :
    afterSlash (p ++ '/' :: n) = some n := by
  induction p with
  | nil => simp [afterSlash]
  | cons c cs ih =>
    have hc : c ≠ '/' := fun h => hp (h ▸ List.mem_cons_self c cs)
    have hcs : ('/' : Char) ∉ cs := fun h => hp (List.mem_cons_of_mem c h)
    simp [afterSlash, hc, ih hcs]

/-- On an identifier of the form `pre ++ ":rule/" ++ name` with a slash-free
`pre`, the slash-resource-name split extracts `name`. -/
theorem splitResourceName_form (pre name : String)
    (hp : ('/' : Char) ∉ pre.data) :
    splitResourceName (pre ++ ":rule/" ++ name) = some name := by
  unfold splitResourceName
  have hdata : (pre ++ ":rule/" ++ name).data =
      (pre.data ++ [':', 'r', 'u', 'l', 'e']) ++ '/' :: name.data := by
    simp [String.data_append]
  have hmem : ('/' : Char) ∉ pre.data ++ [':', 'r', 'u', 'l', 'e'] := by
    simp [List.mem_append, hp]
  rw [hdata, afterSlash_append_slash _ _ hmem]
  simp

/-- The ARN composed for service `iot` and resource `rule` splits as a
slash-free prefix followed by `rule/` and the resource name. -/
theorem composeArn_rule_split (e : Engine) (rname : String) :
    e.composeArn "iot" "rule" rname =
      ("arn:" ++ e.partition ++ ":" ++ "iot" ++ ":" ++ e.region ++ ":" ++
        e.account ++ ":") ++ "rule/" ++ rname := by
  unfold Engine.composeArn
  apply String.ext
  simp [String.data_append]

/-- C1: for every import identifier that does not contain a parseable
resource-name segment after the slash separator, `fromTopicRuleArn` fails
with the missing-resource-name error. -/
theorem fromTopicRuleArn_missing_segment_error (arn : String) (g : Graph)
    (h : splitResourceName arn = none) :
    (fromTopicRuleArn arn g).1 =
      Except.error (missingTopicRuleNameMsg arn) := by
  simp [fromTopicRuleArn, h]

theorem fromTopicRuleArn_missing_segment_error_witness :
    (fromTopicRuleArn "arn:aws:iot:us-east-2:123456789012:rule" []).1 =
      Except.error
        (missingTopicRuleNameMsg "arn:aws:iot:us-east-2:123456789012:rule") :=
  fromTopicRuleArn_missing_segment_error
    "arn:aws:iot:us-east-2:123456789012:rule" [] rfl

/-- C2: for every valid identifier of the form `pre:rule/<name>`, the import
returns the identity whose name is `<name>` and whose ARN is the input
string unchanged (round-trip identity), touching no graph state. -/
theorem fromTopicRuleArn_roundtrip (pre name : String) (g : Graph)
    (hp : ('/' : Char) ∉ pre.data) (hn : name ≠ "") :
    fromTopicRuleArn (pre ++ ":rule/" ++ name) g =
      (Except.ok
        { topicRuleArn := pre ++ ":rule/" ++ name, topicRuleName := name },
        g) := by
  simp [fromTopicRuleArn, splitResourceName_form pre name hp, hn]

theorem fromTopicRuleArn_roundtrip_witness :
    fromTopicRuleArn
        ("arn:aws:iot:us-east-2:123456789012" ++ ":rule/" ++ "MyRule") [] =
      (Except.ok
        { topicRuleArn :=
            "arn:aws:iot:us-east-2:123456789012" ++ ":rule/" ++ "MyRule",
          topicRuleName := "MyRule" }, []) :=
  fromTopicRuleArn_roundtrip "arn:aws:iot:us-east-2:123456789012" "MyRule" []
    (by decide) (by decide)

/-- C10: for every identifier whose resource-name segment after the slash
separator is the empty string, the import fails with the same
missing-resource-name error as when the segment is absent entirely, because
the JavaScript falsiness check treats the empty extracted name as missing. -/
theorem fromTopicRuleArn_empty_segment_error (arn : String) (g : Graph)
    (h : splitResourceName arn = some "") :
    (fromTopicRuleArn arn g).1 =
      Except.error (missingTopicRuleNameMsg arn) := by
  simp [fromTopicRuleArn, h]

theorem fromTopicRuleArn_empty_segment_error_witness :
    (fromTopicRuleArn "arn:aws:iot:us-east-2:123456789012:rule/" []).1 =
      Except.error
        (missingTopicRuleNameMsg "arn:aws:iot:us-east-2:123456789012:rule/") :=
  fromTopicRuleArn_empty_segment_error
    "arn:aws:iot:us-east-2:123456789012:rule/" [] rfl

/-- C7: every successful import returns a read-only identity exposing the
original ARN and the extracted resource name, and leaves the provisioning
graph unchanged: no resource record is registered and there is no other
effect on the passed state. -/
theorem fromTopicRuleArn_success_frame (arn rn : String) (g : Graph)
    (h : splitResourceName arn = some rn) (hn : rn ≠ "") :
    fromTopicRuleArn arn g =
      (Except.ok { topicRuleArn := arn, topicRuleName := rn }, g) := by
  simp [fromTopicRuleArn, h, hn]

theorem fromTopicRuleArn_success_frame_witness :
    fromTopicRuleArn "arn:aws:iot:us-east-2:123456789012:rule/MyRule"
        [{ ruleName := none,
           topicRulePayload :=
             { actions := [], awsIotSqlVersion := "2016-03-23",
               sql := "SELECT topic FROM input" } }] =
      (Except.ok
        { topicRuleArn := "arn:aws:iot:us-east-2:123456789012:rule/MyRule",
          topicRuleName := "MyRule" },
        [{ ruleName := none,
           topicRulePayload :=
             { actions := [], awsIotSqlVersion := "2016-03-23",
               sql := "SELECT topic FROM input" } }]) :=
  fromTopicRuleArn_success_frame
    "arn:aws:iot:us-east-2:123456789012:rule/MyRule" "MyRule"
    [{ ruleName := none,
       topicRulePayload :=
         { actions := [], awsIotSqlVersion := "2016-03-23",
           sql := "SELECT topic FROM input" } }] rfl (by decide)

/-- C9: when the import fails with the missing-resource-name error, the
provisioning graph is unchanged — the error is raised before any identity is
built, so the error path is atomic. -/
theorem fromTopicRuleArn_error_frame (arn msg : String) (g : Graph)
    (_h : (fromTopicRuleArn arn g).1 = Except.error msg) :
    (fromTopicRuleArn arn g).2 = g := by
  rcases hs : splitResourceName arn with _ | rn
  · simp [fromTopicRuleArn, hs]
  · by_cases hrn : rn = "" <;> simp [fromTopicRuleArn, hs, hrn]

theorem fromTopicRuleArn_error_frame_witness :
    (fromTopicRuleArn "arn:aws:iot:us-east-2:123456789012:rule"
        [{ ruleName := some "Existing",
           topicRulePayload :=
             { actions := [], awsIotSqlVersion := "2016-03-23",
               sql := "SELECT topic FROM input" } }]).2 =
      [{ ruleName := some "Existing",
         topicRulePayload :=
           { actions := [], awsIotSqlVersion := "2016-03-23",
             sql := "SELECT topic FROM input" } }] :=
  fromTopicRuleArn_error_frame "arn:aws:iot:us-east-2:123456789012:rule"
    (missingTopicRuleNameMsg "arn:aws:iot:us-east-2:123456789012:rule")
    [{ ruleName := some "Existing",
       topicRulePayload :=
         { actions := [], awsIotSqlVersion := "2016-03-23",
           sql := "SELECT topic FROM input" } }] rfl

/-- C8: the constructor raises no failure for any input (it always returns a
value), and the import's missing-resource-name error is the only error kind
raised by either operation. -/
theorem topicRule_error_taxonomy :
    (∀ (e : Engine) (props : TopicRuleProps) (g : Graph),
      ∃ rg, TopicRule.construct e props g = Except.ok rg) ∧
    (∀ (arn : String) (g : Graph),
      (∃ r, (fromTopicRuleArn arn g).1 = Except.ok r) ∨
        (fromTopicRuleArn arn g).1 =
          Except.error (missingTopicRuleNameMsg arn)) := by
  constructor
  · intro e props g
    exact ⟨_, rfl⟩
  · intro arn g
    rcases hs : splitResourceName arn with _ | rn
    · exact Or.inr (by simp [fromTopicRuleArn, hs])
    · by_cases hrn : rn = ""
      · exact Or.inr (by simp [fromTopicRuleArn, hs, hrn])
      · refine Or.inl ⟨{ topicRuleArn := arn, topicRuleName := rn }, ?_⟩
        simp [fromTopicRuleArn, hs, hrn]

/-- C3: every construction registers exactly one resource record, whose
payload carries an empty actions list and the `awsIotSqlVersion` and `sql`
values exactly as supplied by binding the filter configuration. -/
theorem construct_emits_record (e : Engine) (props : TopicRuleProps)
    (g : Graph) :
    ∃ r, TopicRule.construct e props g =
      Except.ok (r, g ++
        [{ ruleName := props.topicRuleName
           topicRulePayload :=
             { actions := []
               awsIotSqlVersion := props.sql.bind.awsIotSqlVersion
               sql := props.sql.bind.sql } }]) :=
  ⟨_, rfl⟩

/-- C4: every rule identity produced by construction or by import (on a
well-formed rule identifier) satisfies the invariant that the name is the
trailing path segment of the ARN after the fixed `rule/` separator; in this
embedding both identities are values fixed once at creation, hence
immutable. -/
theorem ruleIdentity_invariant :
    (∀ (e : Engine) (props : TopicRuleProps) (g : Graph) (r : ITopicRule)
        (g2 : Graph),
      TopicRule.construct e props g = Except.ok (r, g2) →
        ruleNameInvariant r) ∧
    (∀ (pre name : String) (g : Graph) (r : ITopicRule) (g2 : Graph),
      ('/' : Char) ∉ pre.data → name ≠ "" →
      fromTopicRuleArn (pre ++ ":rule/" ++ name) g = (Except.ok r, g2) →
        ruleNameInvariant r) := by
  constructor
  · intro e props g r g2 h
    simp only [TopicRule.construct, Except.ok.injEq, Prod.mk.injEq] at h
    refine ⟨"arn:" ++ e.partition ++ ":" ++ "iot" ++ ":" ++ e.region ++
      ":" ++ e.account ++ ":", ?_⟩
    rw [← h.1]
    simp only [composeArn_rule_split]
  · intro pre name g r g2 hp hn h
    have key : fromTopicRuleArn (pre ++ ":rule/" ++ name) g =
        (Except.ok
          { topicRuleArn := pre ++ ":rule/" ++ name, topicRuleName := name },
          g) := by
      simp [fromTopicRuleArn, splitResourceName_form pre name hp, hn]
    rw [key] at h
    obtain ⟨h1, -⟩ := Prod.mk.injEq .. ▸ h
    obtain rfl := (Except.ok.injEq ..).mp h1.symm
    refine ⟨pre ++ ":", ?_⟩
    apply String.ext
    simp [String.data_append]

theorem ruleIdentity_invariant_witness :
    ruleNameInvariant
      { topicRuleArn := "arn:" ++ "aws" ++ ":" ++ "iot" ++ ":" ++
          "us-east-2" ++ ":" ++ "123456789012" ++ ":" ++ "rule" ++ "/" ++
          "MyRule",
        topicRuleName := "MyRule" } ∧
    ruleNameInvariant
      { topicRuleArn :=
          "arn:aws:iot:us-east-2:123456789012" ++ ":rule/" ++ "MyRule",
        topicRuleName := "MyRule" } :=
  ⟨ruleIdentity_invariant.1
      { partition := "aws", region := "us-east-2",
        account := "123456789012", assignedName := "Assigned" }
      { topicRuleName := some "MyRule",
        sql := { boundConfig :=
          { awsIotSqlVersion := "2016-03-23",
            sql := "SELECT topic FROM input" } } }
      [] _ _ rfl,
   ruleIdentity_invariant.2 "arn:aws:iot:us-east-2:123456789012" "MyRule"
      [] _ [] (by decide) (by decide) (by rfl)⟩

/-- C5: constructing with the explicit name `MyRule` yields the name
`MyRule` and an ARN ending in `rule/MyRule`. -/
theorem construct_explicit_name (e : Engine) (sqlc : IotSql) (g : Graph) :
    ∃ r g2,
      TopicRule.construct e
        { topicRuleName := some "MyRule", sql := sqlc } g =
          Except.ok (r, g2) ∧
      r.topicRuleName = "MyRule" ∧
      ∃ q, r.topicRuleArn = q ++ "rule/MyRule" := by
  refine ⟨_, _, rfl, rfl, ?_⟩
  refine ⟨"arn:" ++ e.partition ++ ":" ++ "iot" ++ ":" ++ e.region ++
    ":" ++ e.account ++ ":", ?_⟩
  show e.composeArn "iot" "rule" "MyRule" = _
  apply String.ext
  simp [Engine.composeArn, String.data_append]

/-- C6: constructing with no explicit name yields the non-empty
provider-assigned name and an ARN carrying that name as its trailing
segment after `rule/`. -/
theorem construct_default_name (e : Engine) (sqlc : IotSql) (g : Graph)
    (h : e.assignedName ≠ "") :
    ∃ r g2,
      TopicRule.construct e { topicRuleName := none, sql := sqlc } g =
        Except.ok (r, g2) ∧
      r.topicRuleName ≠ "" ∧
      ∃ q, r.topicRuleArn = q ++ "rule/" ++ r.topicRuleName := by
  refine ⟨_, _, rfl, h, ?_⟩
  exact ⟨"arn:" ++ e.partition ++ ":" ++ "iot" ++ ":" ++ e.region ++
    ":" ++ e.account ++ ":", composeArn_rule_split e e.assignedName⟩

theorem construct_default_name_witness :
    ∃ r g2,
      TopicRule.construct
        { partition := "aws", region := "us-east-2",
          account := "123456789012", assignedName := "Provider8843" }
        { topicRuleName := none,
          sql := { boundConfig :=
            { awsIotSqlVersion := "2016-03-23",
              sql := "SELECT topic FROM input" } } } [] =
          Except.ok (r, g2) ∧
      r.topicRuleName ≠ "" ∧
      ∃ q, r.topicRuleArn = q ++ "rule/" ++ r.topicRuleName :=
  construct_default_name
    { partition := "aws", region := "us-east-2",
      account := "123456789012", assignedName := "Provider8843" }
    { boundConfig :=
      { awsIotSqlVersion := "2016-03-23",
        sql := "SELECT topic FROM input" } }
    [] (by decide)
